import Mathlib

/-!
Verification of the wind-turbine edge-manager workshop notebook
(`lab/02 - Training with Pytorch.ipynb`).

The only local computation of the repository is the MAE/threshold cell:

  x_inputs = x_inputs.reshape(n_samples, n_features, n_rows*n_cols).transpose((0,2,1))
  y_preds  = y_preds.reshape(n_samples, n_features, n_rows*n_cols).transpose((0,2,1))
  mae_loss = np.mean(np.abs(y_preds - x_inputs), axis=1).transpose((1,0))
  mae_loss[np.isnan(mae_loss)] = 0
  thresholds = np.mean(mae_loss, axis=1)

We embed it shallowly: floating-point values become rationals extended by a
NaN element (`Option ℚ`, `none` = NaN, with NaN-propagating arithmetic, which
is how the NaN entries behave in this computation), and numpy ndarrays become
a shape together with flat data in C (row-major) order.  The orchestration
fragments the claims mention (pipeline-creation fallback, the three polling
loops, the training-job count assertion) are embedded as explicit control-flow
functions at the end of the definitions section.
-/

/-- Values flowing through the threshold computation: a rational number, or
NaN (`none`). -/
abbrev Val : Type := Option ℚ

/-- Subtraction; NaN propagates (NaN - x = x - NaN = NaN). -/
def vsub : Val → Val → Val
  | some a, some b => some (a - b)
  | _, _ => none

/-- Absolute value; NaN propagates. -/
def vabs : Val → Val
  | some a => some |a|
  | none => none

/-- Addition; NaN propagates. -/
def vadd : Val → Val → Val
  | some a, some b => some (a + b)
  | _, _ => none

/-- Sum of a list of values; NaN as soon as one element is NaN. -/
def vsum : List Val → Val
  | [] => some 0
  | v :: vs => vadd v (vsum vs)

/-- Mean of a 1-d collection, as `np.mean` computes it along an axis: NaN for
an empty collection (mean over a size-0 axis), otherwise the sum divided by
the length, with NaN propagating. -/
def vmean (l : List Val) : Val :=
  if l.length = 0 then none else Option.map (fun s => s / (l.length : ℚ)) (vsum l)

/-- Zeroing of invalid entries, as `mae_loss[np.isnan(mae_loss)] = 0` does it:
NaN becomes 0, every other value is kept. -/
def nanToZero : Val → Val
  | none => some 0
  | some a => some a

/-- An ndarray: a shape and the flat data in C (row-major) order. -/
structure NDArray where
  shape : List ℕ
  data : List Val

/-- Well-formedness: the flat data length is the product of the dimensions. -/
def NDArray.WF (a : NDArray) : Prop := a.data.length = a.shape.prod

/-- Reshape, as `ndarray.reshape`: the flat data is unchanged under the new
shape; it errors (`none`) exactly when the total element counts differ. -/
def reshape (a : NDArray) (s : List ℕ) : Option NDArray :=
  if a.data.length = s.prod then some ⟨s, a.data⟩ else none

/-- Transpose with axes `(0,2,1)` of a rank-3 array: shape `(n,b,c)` becomes
`(n,c,b)`, entry `(i,k,j)` of the result is entry `(i,j,k)` of the argument.
Call sites only ever pass rank-3 arrays; other ranks are returned unchanged. -/
def transpose021 (a : NDArray) : NDArray :=
  match a with
  | ⟨[n, b, c], d⟩ =>
      ⟨[n, c, b], (List.range (n * c * b)).map (fun idx =>
        d.getD (idx / (c * b) * (b * c) + idx % (c * b) % b * c + idx % (c * b) / b) none)⟩
  | a => a

/-- Transpose with axes `(1,0)` of a rank-2 array. Call sites only ever pass
rank-2 arrays; other ranks are returned unchanged. -/
def transpose10 (a : NDArray) : NDArray :=
  match a with
  | ⟨[p, q], d⟩ =>
      ⟨[q, p], (List.range (q * p)).map (fun idx =>
        d.getD (idx % p * q + idx / p) none)⟩
  | a => a

/-- Mean along axis 1 of a rank-3 array, as `np.mean(·, axis=1)`: shape
`(n,b,c)` becomes `(n,c)`. Call sites only ever pass rank-3 arrays. -/
def mean3Axis1 (a : NDArray) : NDArray :=
  match a with
  | ⟨[n, b, c], d⟩ =>
      ⟨[n, c], (List.range (n * c)).map (fun idx =>
        vmean ((List.range b).map (fun j =>
          d.getD (idx / c * (b * c) + j * c + idx % c) none)))⟩
  | a => a

/-- Mean along axis 1 of a rank-2 array: shape `(p,q)` becomes `(p,)`. Call
sites only ever pass rank-2 arrays. -/
def mean2Axis1 (a : NDArray) : NDArray :=
  match a with
  | ⟨[p, q], d⟩ =>
      ⟨[p], (List.range p).map (fun i =>
        vmean ((List.range q).map (fun j => d.getD (i * q + j) none)))⟩
  | a => a

/-- Elementwise zeroing of the NaN entries of an array
(`arr[np.isnan(arr)] = 0`). -/
def nanZero (a : NDArray) : NDArray := ⟨a.shape, a.data.map nanToZero⟩

/-- Elementwise `np.abs(p - x)` for two arrays of the same shape. -/
def absDiff (p x : NDArray) : NDArray :=
  ⟨x.shape, (p.data.zip x.data).map (fun q => vabs (vsub q.1 q.2))⟩

/-- One stack transformed as in the notebook:
`a.reshape(n, f, rc).transpose((0,2,1))`. -/
def transformStack (a : NDArray) (n f rc : ℕ) : Option NDArray :=
  Option.map transpose021 (reshape a [n, f, rc])

/-- Contents of the `mae_loss` variable after the in-place NaN zeroing:
`np.mean(np.abs(y3 - x3), axis=1).transpose((1,0))` with NaNs zeroed. -/
def maeLoss (x3 y3 : NDArray) : NDArray :=
  nanZero (transpose10 (mean3Axis1 (absDiff y3 x3)))

/-- The whole threshold cell: unpack `(n, f, r, c)` from the shape of the
input stack, reshape-transpose both stacks (the prediction stack with the
dimensions taken from the input stack), reduce to `mae_loss`, zero the NaNs,
and average over the samples.  `none` models an uncaught exception (a shape
unpack or reshape error). -/
def computeThresholds (x y : NDArray) : Option (List Val) :=
  match x.shape with
  | [n, f, r, c] =>
      match transformStack x n f (r * c), transformStack y n f (r * c) with
      | some x3, some y3 => some (mean2Axis1 (maeLoss x3 y3)).data
      | _, _ => none
  | _ => none

/-- Flat C-order index of the entry at sample `s`, feature `i`, location `l`
of a stack of shape `(n, f, rc)` (equivalently, of the original stack of
shape `(n, f, r, c)` with `l = row * c + col`). -/
def flatIdx (f rc s i l : ℕ) : ℕ := s * (f * rc) + i * rc + l

/-- Entry at sample `s`, feature `i`, location `l` of a flat stack. -/
def entryAt (d : List Val) (f rc s i l : ℕ) : Val := d.getD (flatIdx f rc s i l) none

/-- Absolute prediction error at sample `s`, feature `i`, location `l`. -/
def absErr (x y : NDArray) (f rc s i l : ℕ) : Val :=
  vabs (vsub (entryAt y.data f rc s i l) (entryAt x.data f rc s i l))

/-- Mean absolute error of sample `s` at feature `i`, taken over the `rc`
locations. -/
def sampleFeatureMAE (x y : NDArray) (f rc s i : ℕ) : Val :=
  vmean ((List.range rc).map (fun l => absErr x y f rc s i l))

/-- The per-feature threshold as the claims describe it: the mean over the
`n` samples of the NaN-zeroed per-sample mean absolute error at feature `i`. -/
def specFeatureThreshold (x y : NDArray) (n f rc i : ℕ) : Val :=
  vmean ((List.range n).map (fun s => nanToZero (sampleFeatureMAE x y f rc s i)))

/-- Mean over all `n` samples and all `rc` locations at once of the absolute
error at feature `i` (the closed-form joint mean-absolute-error value). -/
def jointMeanAbsErr (x y : NDArray) (n f rc i : ℕ) : Val :=
  vmean (((List.range n).map (fun s =>
    (List.range rc).map (fun l => absErr x y f rc s i l))).flatten)

/-- Decidable nonnegativity of a value: false on NaN. -/
def vNonnegB : Val → Bool
  | some q => decide (0 ≤ q)
  | none => false

/-- Nonnegative-or-NaN predicate: every rational the value can be is `≥ 0`. -/
def VNN (v : Val) : Prop := ∀ q : ℚ, v = some q → 0 ≤ q

/-- Entry read by the transposed reshaped stack at flat position `m`. -/
def stackEntry (a : NDArray) (f rc m : ℕ) : Val :=
  a.data.getD (m / (rc * f) * (f * rc) + m % (rc * f) % f * rc + m % (rc * f) / f) none

/-- Flat data of the transposed reshaped stack. -/
def stackMap (a : NDArray) (n f rc : ℕ) : List Val :=
  (List.range (n * rc * f)).map (fun m => stackEntry a f rc m)

/-! Embedding of the orchestration fragments. -/

/-- Outcome of the `pipeline.create(role_arn=role)` call: success with the
response ARN, a `botocore` client error carrying `Error.Code` and
`Error.Message`, or any other exception. -/
inductive CreateResult where
  | ok (arn : String)
  | clientError (code msg : String)
  | otherError (e : String)
deriving DecidableEq

/-- Outcome of the create-pipeline cell: the response came from the create
call or from the fallback describe call, or an exception propagated (the
re-raised client error, or an exception the `except ClientError` clause never
caught). -/
inductive FlowResult where
  | fromCreate (arn : String)
  | fromDescribe (arn : String)
  | raisedClient (code msg : String)
  | raisedOther (e : String)
deriving DecidableEq

/-- Test whether `p` starts the list `l`. -/
def leadsList : List Char → List Char → Bool
  | [], _ => true
  | _ :: _, [] => false
  | a :: as, b :: bs => a == b && leadsList as bs

/-- Test whether `p` occurs contiguously inside `l`. -/
def occursList (p : List Char) : List Char → Bool
  | [] => leadsList p []
  | b :: bs => leadsList p (b :: bs) || occursList p bs

/-- Substring test, modelling the Python `pat in s` on strings. -/
def strOccurs (pat s : String) : Bool := occursList pat.data s.data

/-- Message fragment matched by the duplicate-pipeline-name handler. -/
def dupPipelineMsg : String := "Pipeline names must be unique within"

/-- Control flow of the create-pipeline cell:

      try:
          response = pipeline.create(role_arn=role)
      except ClientError as e:
          error = e.response["Error"]
          if error["Code"] == "ValidationError" and
             "Pipeline names must be unique within" in error["Message"]:
              response = pipeline.describe()
          else:
              raise

`describedArn` is the ARN the describe call would return. -/
def createPipelineFlow (res : CreateResult) (describedArn : String) : FlowResult :=
  match res with
  | CreateResult.ok arn => FlowResult.fromCreate arn
  | CreateResult.clientError code msg =>
      if code == "ValidationError" && strOccurs dupPipelineMsg msg then
        FlowResult.fromDescribe describedArn
      else
        FlowResult.raisedClient code msg
  | CreateResult.otherError e => FlowResult.raisedOther e

/-- Polling loop shared by the three wait cells: `s k` is the status the
`k`-th describe call observes, `running` is the status set that keeps the
loop going.  The loop breaks and reports the first status outside the running
set; `fuel` bounds how many polls we unroll (`none` = still looping). -/
def pollLoop (running : String → Bool) (s : ℕ → String) : ℕ → ℕ → Option String
  | 0, _ => none
  | fuel + 1, i => if running (s i) then pollLoop running s fuel (i + 1) else some (s i)

/-- Running set of the pipeline-execution wait loop. -/
def pipelineExecRunning (st : String) : Bool := st == "Executing"

/-- Running set of the compilation-job wait loop. -/
def compilationRunning (st : String) : Bool := st == "STARTING" || st == "INPROGRESS"

/-- Running set of the edge-packaging-job wait loop. -/
def edgePackagingRunning (st : String) : Bool := st == "STARTING" || st == "INPROGRESS"

/-- Fixed sleep between two pipeline-execution polls (`time.sleep(30)`). -/
def pipelinePollSeconds : ℕ := 30

/-- Fixed sleep between two compilation-job polls (`time.sleep(5)`). -/
def compilationPollSeconds : ℕ := 5

/-- Fixed sleep between two edge-packaging polls (`time.sleep(5)`). -/
def edgePackagingPollSeconds : ℕ := 5

/-- Result of `list_training_jobs(NameContains=execution_id,
StatusEquals='Completed')`: the jobs, given as (name, status) pairs, whose
status is `Completed` and whose name contains the execution id. -/
def trainingJobsFor (jobs : List (String × String)) (execId : String) :
    List (String × String) :=
  jobs.filter (fun j => j.2 == "Completed" && strOccurs execId j.1)

/-- Steps of the notebook that follow the training-job count assertion. -/
def downstreamSteps : List String :=
  ["attach-estimator", "download-train-input", "compute-thresholds",
   "compile-model", "package-model", "deploy-fleet"]

/-- Post-run cell: list the completed training jobs whose name contains the
execution id, `assert(len(training_jobs) == 1)`, and select the single job's
name; a failed assertion raises `AssertionError`. -/
def part3Gate (jobs : List (String × String)) (execId : String) :
    Except String String :=
  if (trainingJobsFor jobs execId).length = 1 then
    Except.ok ((trainingJobsFor jobs execId).headD ("", "")).1
  else
    Except.error "AssertionError"

/-- Post-run cell together with everything after it: the downstream steps run
exactly when the assertion passed (an uncaught `AssertionError` stops the
notebook). -/
def part3AndOnward (jobs : List (String × String)) (execId : String) :
    Except String (String × List String) :=
  match part3Gate jobs execId with
  | Except.ok nm => Except.ok (nm, downstreamSteps)
  | Except.error e => Except.error e

/-! Concrete arrays used by the witnesses and counterexamples. -/

/-- Concrete input stack, shape (1, 2, 1, 1), all zero. -/
def gtTwoFeat : NDArray := ⟨[1, 2, 1, 1], [some 0, some 0]⟩

/-- Concrete prediction stack, shape (1, 2, 1, 1), values 1 and 3. -/
def predTwoFeat : NDArray := ⟨[1, 2, 1, 1], [some 1, some 3]⟩

/-- Degenerate stack with zero samples, shape (0, 1, 1, 1). -/
def emptyOneFeat : NDArray := ⟨[0, 1, 1, 1], []⟩

/-- Degenerate stack with zero samples, shape (0, 2, 1, 1). -/
def emptyTwoFeat : NDArray := ⟨[0, 2, 1, 1], []⟩

/-- Degenerate stack with zero samples, shape (0, 1, 1, 2). -/
def emptyTwoLoc : NDArray := ⟨[0, 1, 1, 2], []⟩

/-- Concrete input stack, shape (1, 2, 1, 2), all zero. -/
def gtOneByFour : NDArray := ⟨[1, 2, 1, 2], [some 0, some 0, some 0, some 0]⟩

/-- Concrete prediction stack, shape (1, 2, 1, 2). -/
def predOneByFour : NDArray := ⟨[1, 2, 1, 2], [some 1, some 3, some 2, some 6]⟩

/-- The same four prediction values under a flat rank-1 shape. -/
def predFlatFour : NDArray := ⟨[4], [some 1, some 3, some 2, some 6]⟩

/-- A rank-1 prediction array with only three values. -/
def predFlatThree : NDArray := ⟨[3], [some 1, some 3, some 2]⟩

/-- Input stack with a NaN entry, shape (1, 1, 1, 2). -/
def gtWithNaN : NDArray := ⟨[1, 1, 1, 2], [some 0, none]⟩

/-- Prediction stack for the NaN example, shape (1, 1, 1, 2). -/
def predNoNaN : NDArray := ⟨[1, 1, 1, 2], [some 5, some 7]⟩

/-- Stack with a NaN entry used both as input and prediction, shape (2, 1, 1, 1). -/
def selfWithNaN : NDArray := ⟨[2, 1, 1, 1], [some 5, none]⟩

/-- Concrete stack with pairwise distinct values, shape (1, 2, 1, 2). -/
def rampStack : NDArray := ⟨[1, 2, 1, 2], [some 1, some 2, some 3, some 4]⟩

/-! Helper lemmas: flat-index arithmetic and list access. -/

/-- Element `i` of `(List.range m).map g`, for `i < m`. -/
theorem getD_range_map {α : Type} (g : ℕ → α) (m i : ℕ) (d : α) (h : i < m) :
    ((List.range m).map g).getD i d = g i := by
  simp [List.getD, List.getElem?_map, List.getElem?_range, h]

theorem div_add_of_lt {B s t : ℕ} (ht : t < B) : (s * B + t) / B = s := by
  have hB : 0 < B := by omega
  rw [Nat.mul_comm s B, Nat.mul_add_div hB, Nat.div_eq_of_lt ht, Nat.add_zero]

theorem mod_add_of_lt {B s t : ℕ} (ht : t < B) : (s * B + t) % B = t := by
  rw [Nat.mul_comm s B, Nat.mul_add_mod, Nat.mod_eq_of_lt ht]

theorem flat2_lt {b c j k : ℕ} (hj : j < b) (hk : k < c) : j * c + k < b * c := by
  have h1 : j * c + k < (j + 1) * c := by
    have : (j + 1) * c = j * c + c := by ring
    omega
  have h2 : (j + 1) * c ≤ b * c := Nat.mul_le_mul_right c hj
  omega

theorem flat3_lt {a b c i j k : ℕ} (hi : i < a) (hj : j < b) (hk : k < c) :
    i * (b * c) + j * c + k < a * (b * c) := by
  have h := flat2_lt hi (flat2_lt hj hk)
  omega

/-- Pointwise congruence of maps over an initial segment. -/
theorem rangeMap_congr {α : Type} {m : ℕ} {g h : ℕ → α}
    (hgh : ∀ i < m, g i = h i) : (List.range m).map g = (List.range m).map h :=
  List.map_congr_left (fun i hi => hgh i (List.mem_range.mp hi))

/-! Stage lemmas: each stage of the threshold cell, characterized on the data
    the previous stages produce. -/

theorem transformStack_eq (a : NDArray) (n f rc : ℕ)
    (hl : a.data.length = n * f * rc) :
    transformStack a n f rc = some ⟨[n, rc, f], stackMap a n f rc⟩ := by
  have hcond : a.data.length = List.prod [n, f, rc] := by
    simp [hl]; ring
  unfold transformStack reshape
  rw [if_pos hcond]
  rfl

/-- Unfolding of the stack entry at an in-range three-dimensional position. -/
theorem stackEntry_flat (a : NDArray) (f rc s i l : ℕ) (hi : i < f) (hl : l < rc) :
    stackEntry a f rc (s * (rc * f) + (l * f + i)) = entryAt a.data f rc s i l := by
  have ht : l * f + i < rc * f := flat2_lt hl hi
  unfold stackEntry entryAt flatIdx
  rw [div_add_of_lt ht, mod_add_of_lt ht, mod_add_of_lt hi, div_add_of_lt hi]

theorem mean3_absDiff (x y : NDArray) (n f rc : ℕ) :
    mean3Axis1 (absDiff ⟨[n, rc, f], stackMap y n f rc⟩ ⟨[n, rc, f], stackMap x n f rc⟩) =
      ⟨[n, f], (List.range (n * f)).map (fun idx =>
        sampleFeatureMAE x y f rc (idx / f) (idx % f))⟩ := by
  have hzip : (stackMap y n f rc).zip (stackMap x n f rc) =
      (List.range (n * rc * f)).map (fun m => (stackEntry y f rc m, stackEntry x f rc m)) := by
    unfold stackMap
    exact List.zip_map' _ _ _
  show (⟨[n, f], (List.range (n * f)).map (fun idx =>
        vmean ((List.range rc).map (fun j =>
          (((stackMap y n f rc).zip (stackMap x n f rc)).map
            (fun q => vabs (vsub q.1 q.2))).getD (idx / f * (rc * f) + j * f + idx % f) none)))⟩
      : NDArray) = _
  rw [hzip, List.map_map]
  have hmk : (⟨[n, f], (List.range (n * f)).map (fun idx =>
      sampleFeatureMAE x y f rc (idx / f) (idx % f))⟩ : NDArray) =
      ⟨[n, f], (List.range (n * f)).map (fun idx =>
        sampleFeatureMAE x y f rc (idx / f) (idx % f))⟩ := rfl
  refine congrArg (fun d => (⟨[n, f], d⟩ : NDArray)) ?_
  refine rangeMap_congr (fun idx hidx => ?_)
  have hf : 0 < f := by
    rcases Nat.eq_zero_or_pos f with h0 | h0
    · rw [h0, Nat.mul_zero] at hidx; omega
    · exact h0
  have hsn : idx / f < n := Nat.div_lt_of_lt_mul (by rw [Nat.mul_comm]; exact hidx)
  unfold sampleFeatureMAE
  refine congrArg vmean (rangeMap_congr (fun j hj => ?_))
  have hif : idx % f < f := Nat.mod_lt _ hf
  have ht : j * f + idx % f < rc * f := flat2_lt hj hif
  have hpos : idx / f * (rc * f) + j * f + idx % f < n * rc * f := by
    have h := flat2_lt hsn ht
    have hassoc : n * rc * f = n * (rc * f) := by ring
    omega
  have hpos2 : idx / f * (rc * f) + j * f + idx % f = idx / f * (rc * f) + (j * f + idx % f) := by
    omega
  rw [getD_range_map _ _ _ _ hpos]
  show vabs (vsub (stackEntry y f rc _) (stackEntry x f rc _)) = _
  rw [hpos2, stackEntry_flat y f rc _ _ _ hif hj, stackEntry_flat x f rc _ _ _ hif hj]
  rfl

theorem transpose10_of_map (g : ℕ → ℕ → Val) (nn ff : ℕ) :
    transpose10 ⟨[nn, ff], (List.range (nn * ff)).map (fun idx => g (idx / ff) (idx % ff))⟩ =
      ⟨[ff, nn], (List.range (ff * nn)).map (fun m => g (m % nn) (m / nn))⟩ := by
  show (⟨[ff, nn], (List.range (ff * nn)).map (fun idx =>
      ((List.range (nn * ff)).map (fun idx => g (idx / ff) (idx % ff))).getD
        (idx % nn * ff + idx / nn) none)⟩ : NDArray) = _
  refine congrArg (fun d => (⟨[ff, nn], d⟩ : NDArray)) ?_
  refine rangeMap_congr (fun m hm => ?_)
  have hnn : 0 < nn := by
    rcases Nat.eq_zero_or_pos nn with h0 | h0
    · rw [h0, Nat.mul_zero] at hm; omega
    · exact h0
  have hs : m % nn < nn := Nat.mod_lt _ hnn
  have hi : m / nn < ff := Nat.div_lt_of_lt_mul (by rw [Nat.mul_comm]; exact hm)
  have hpos : m % nn * ff + m / nn < nn * ff := flat2_lt hs hi
  rw [getD_range_map _ _ _ _ hpos]
  rw [div_add_of_lt hi, mod_add_of_lt hi]

theorem mean2_of_map (g : ℕ → ℕ → Val) (ff nn : ℕ) :
    mean2Axis1 ⟨[ff, nn], (List.range (ff * nn)).map (fun m => g (m / nn) (m % nn))⟩ =
      ⟨[ff], (List.range ff).map (fun i =>
        vmean ((List.range nn).map (fun s => g i s)))⟩ := by
  show (⟨[ff], (List.range ff).map (fun i =>
      vmean ((List.range nn).map (fun j =>
        ((List.range (ff * nn)).map (fun m => g (m / nn) (m % nn))).getD (i * nn + j) none)))⟩
    : NDArray) = _
  refine congrArg (fun d => (⟨[ff], d⟩ : NDArray)) ?_
  refine rangeMap_congr (fun i hi => ?_)
  refine congrArg vmean (rangeMap_congr (fun s hs => ?_))
  have hpos : i * nn + s < ff * nn := flat2_lt hi hs
  rw [getD_range_map _ _ _ _ hpos]
  rw [div_add_of_lt hs, mod_add_of_lt hs]

/-- Central characterization of the threshold cell: on stacks of shape
`(n, f, r, c)` (the prediction stack of any shape with the matching total
element count) it returns the vector, indexed by the `f` features, of the
per-feature nested means. -/
theorem computeThresholds_char (x y : NDArray) (n f r c : ℕ)
    (hx : x.shape = [n, f, r, c])
    (hxl : x.data.length = n * f * (r * c))
    (hyl : y.data.length = n * f * (r * c)) :
    computeThresholds x y =
      some ((List.range f).map (specFeatureThreshold x y n f (r * c))) := by
  have hmatch : computeThresholds x y =
      (match transformStack x n f (r * c), transformStack y n f (r * c) with
        | some x3, some y3 => some (mean2Axis1 (maeLoss x3 y3)).data
        | _, _ => none) := by
    unfold computeThresholds
    rw [hx]
  rw [hmatch, transformStack_eq x n f (r * c) hxl, transformStack_eq y n f (r * c) hyl]
  show some (mean2Axis1 (maeLoss ⟨[n, r * c, f], stackMap x n f (r * c)⟩
      ⟨[n, r * c, f], stackMap y n f (r * c)⟩)).data = _
  unfold maeLoss
  rw [mean3_absDiff x y n f (r * c)]
  rw [transpose10_of_map (fun s i => sampleFeatureMAE x y f (r * c) s i) n f]
  show some (mean2Axis1 ⟨[f, n], ((List.range (f * n)).map (fun m =>
      sampleFeatureMAE x y f (r * c) (m % n) (m / n))).map nanToZero⟩).data = _
  rw [List.map_map]
  show some (mean2Axis1 ⟨[f, n], (List.range (f * n)).map (fun m =>
      nanToZero (sampleFeatureMAE x y f (r * c) (m % n) (m / n)))⟩).data = _
  rw [mean2_of_map (fun i s => nanToZero (sampleFeatureMAE x y f (r * c) s i)) f n]
  rfl

/-! Value-level helper lemmas. -/

theorem nanToZero_isSome (v : Val) : (nanToZero v).isSome = true := by
  cases v <;> rfl

theorem some_getD_of_isSome (v : Val) (h : v.isSome = true) : v = some (v.getD 0) := by
  cases v
  · simp at h
  · rfl

theorem vsum_map_some (L : List ℚ) : vsum (L.map some) = some L.sum := by
  induction L with
  | nil => rfl
  | cons a as ih => simp [vsum, ih, vadd]

theorem vmean_map_some (L : List ℚ) (h : L ≠ []) :
    vmean (L.map some) = some (L.sum / (L.length : ℚ)) := by
  have hlen : (L.map some).length = L.length := List.length_map _ _
  unfold vmean
  rw [hlen, if_neg (fun hc => h (List.length_eq_zero.mp hc)), vsum_map_some]
  rfl

theorem all_some_eq_map (L : List Val) (h : ∀ v ∈ L, v.isSome = true) :
    L = (L.map (fun v => v.getD 0)).map some := by
  induction L with
  | nil => rfl
  | cons a as ih =>
      have ha := h a (by simp)
      have has : ∀ v ∈ as, v.isSome = true := fun v hv => h v (by simp [hv])
      rw [List.map_cons, List.map_cons, ← ih has, ← some_getD_of_isSome a ha]

theorem vmean_isSome (L : List Val) (h0 : L ≠ []) (h : ∀ v ∈ L, v.isSome = true) :
    (vmean L).isSome = true := by
  have hmap : L.map (fun v => v.getD 0) ≠ [] :=
    fun hc => h0 (List.map_eq_nil_iff.mp hc)
  rw [all_some_eq_map L h, vmean_map_some _ hmap]
  rfl

theorem VNN_none : VNN none := fun q hq => by cases hq

theorem VNN_vadd {a b : Val} (ha : VNN a) (hb : VNN b) : VNN (vadd a b) := by
  cases a with
  | none => exact fun q hq => by cases hq
  | some qa =>
      cases b with
      | none => exact fun q hq => by cases hq
      | some qb =>
          intro q hq
          cases hq
          exact add_nonneg (ha qa rfl) (hb qb rfl)

theorem VNN_vsum (L : List Val) (h : ∀ v ∈ L, VNN v) : VNN (vsum L) := by
  induction L with
  | nil => intro q hq; cases hq; rfl
  | cons a as ih =>
      exact VNN_vadd (h a (by simp)) (ih (fun v hv => h v (by simp [hv])))

theorem VNN_vmean (L : List Val) (h : ∀ v ∈ L, VNN v) : VNN (vmean L) := by
  unfold vmean
  by_cases h0 : L.length = 0
  · rw [if_pos h0]; exact VNN_none
  · rw [if_neg h0]
    intro q hq
    cases hsum : vsum L with
    | none => rw [hsum] at hq; cases hq
    | some qs =>
        rw [hsum] at hq
        cases hq
        exact div_nonneg (VNN_vsum L h qs hsum) (Nat.cast_nonneg _)

theorem VNN_vabs (v : Val) : VNN (vabs v) := by
  cases v with
  | none => exact VNN_none
  | some a => intro q hq; cases hq; exact abs_nonneg a

theorem VNN_absErr (x y : NDArray) (f rc s i l : ℕ) : VNN (absErr x y f rc s i l) :=
  VNN_vabs _

theorem VNN_nanToZero {v : Val} (h : VNN v) : VNN (nanToZero v) := by
  cases v with
  | none => intro q hq; cases hq; rfl
  | some a => exact h

theorem vNonnegB_of {v : Val} (h1 : v.isSome = true) (h2 : VNN v) :
    vNonnegB v = true := by
  cases v with
  | none => simp at h1
  | some q => simpa [vNonnegB] using h2 q rfl

theorem list_sum_div (L : List ℚ) (d : ℚ) :
    (L.map (fun q => q / d)).sum = L.sum / d := by
  induction L with
  | nil => simp
  | cons a as ih => simp [ih, add_div]

theorem getD_mem {L : List Val} {pos : ℕ} (h : pos < L.length) : L.getD pos none ∈ L := by
  rw [List.getD_eq_getElem?_getD, List.getElem?_eq_getElem h]
  exact List.getElem_mem h

theorem flatIdx_lt {n f rc s i l : ℕ} (hs : s < n) (hi : i < f) (hl : l < rc) :
    flatIdx f rc s i l < n * f * rc := by
  unfold flatIdx
  have h := flat2_lt hs (flat2_lt hi hl)
  have hassoc : n * f * rc = n * (f * rc) := by ring
  omega

theorem vabs_vsub_isSome {a b : Val} (ha : a.isSome = true) (hb : b.isSome = true) :
    (vabs (vsub a b)).isSome = true := by
  cases a <;> cases b <;> simp_all [vabs, vsub]

theorem absErr_isSome (x y : NDArray) (n f rc s i l : ℕ)
    (hxl : x.data.length = n * f * rc) (hyl : y.data.length = n * f * rc)
    (hxs : ∀ v ∈ x.data, v.isSome = true) (hys : ∀ v ∈ y.data, v.isSome = true)
    (hs : s < n) (hi : i < f) (hl : l < rc) :
    (absErr x y f rc s i l).isSome = true := by
  have hx := hxs _ (@getD_mem x.data (flatIdx f rc s i l) (by rw [hxl]; exact flatIdx_lt hs hi hl))
  have hy := hys _ (@getD_mem y.data (flatIdx f rc s i l) (by rw [hyl]; exact flatIdx_lt hs hi hl))
  exact vabs_vsub_isSome hy hx

/-- Under NaN-free data of the right sizes, the nested mean (per-sample means,
then the mean over samples) agrees with the joint mean over all samples and
locations. -/
theorem nested_eq_joint (x y : NDArray) (n f rc i : ℕ)
    (hxl : x.data.length = n * f * rc) (hyl : y.data.length = n * f * rc)
    (hxs : ∀ v ∈ x.data, v.isSome = true) (hys : ∀ v ∈ y.data, v.isSome = true)
    (hn : 0 < n) (hrc : 0 < rc) (hi : i < f) :
    specFeatureThreshold x y n f rc i = jointMeanAbsErr x y n f rc i := by
  have habs : ∀ s < n, ∀ l < rc,
      absErr x y f rc s i l = some ((absErr x y f rc s i l).getD 0) :=
    fun s hs l hl =>
      some_getD_of_isSome _ (absErr_isSome x y n f rc s i l hxl hyl hxs hys hs hi hl)
  have hinner : ∀ s < n, (List.range rc).map (fun l => absErr x y f rc s i l) =
      ((List.range rc).map (fun l => (absErr x y f rc s i l).getD 0)).map some := by
    intro s hs
    rw [List.map_map]
    exact rangeMap_congr (fun l hl => habs s hs l hl)
  have hlen_inner : ∀ s : ℕ,
      ((List.range rc).map (fun l => (absErr x y f rc s i l).getD 0)).length = rc := by
    intro s; simp
  have hne_inner : ∀ s : ℕ,
      (List.range rc).map (fun l => (absErr x y f rc s i l).getD 0) ≠ [] := by
    intro s hc
    have := congrArg List.length hc
    rw [hlen_inner s] at this
    simp at this
    omega
  have hSF : ∀ s < n, sampleFeatureMAE x y f rc s i =
      some ((((List.range rc).map (fun l => (absErr x y f rc s i l).getD 0)).sum) / (rc : ℚ)) := by
    intro s hs
    unfold sampleFeatureMAE
    rw [hinner s hs, vmean_map_some _ (hne_inner s), hlen_inner s]
  -- the nested side
  have hleft : specFeatureThreshold x y n f rc i =
      some (((List.range n).map (fun s =>
        (((List.range rc).map (fun l => (absErr x y f rc s i l).getD 0)).sum) / (rc : ℚ))).sum
          / (n : ℚ)) := by
    unfold specFeatureThreshold
    have houter : (List.range n).map (fun s => nanToZero (sampleFeatureMAE x y f rc s i)) =
        ((List.range n).map (fun s =>
          (((List.range rc).map (fun l => (absErr x y f rc s i l).getD 0)).sum) / (rc : ℚ))).map
            some := by
      rw [List.map_map]
      refine rangeMap_congr (fun s hs => ?_)
      rw [hSF s hs]
      rfl
    rw [houter, vmean_map_some]
    · simp
    · intro hc
      have := congrArg List.length hc
      simp at this
      omega
  -- the joint side
  have hflat : ((List.range n).map (fun s =>
      (List.range rc).map (fun l => absErr x y f rc s i l))).flatten =
      (((List.range n).map (fun s =>
        (List.range rc).map (fun l => (absErr x y f rc s i l).getD 0))).flatten).map some := by
    rw [List.map_flatten, List.map_map]
    refine congrArg List.flatten (rangeMap_congr (fun s hs => ?_))
    exact hinner s hs
  have hflatlen : (((List.range n).map (fun s =>
      (List.range rc).map (fun l => (absErr x y f rc s i l).getD 0))).flatten).length
      = n * rc := by
    rw [List.length_flatten, List.map_map]
    have : ((List.range n).map (fun s =>
        (List.length ∘ fun s => (List.range rc).map (fun l => (absErr x y f rc s i l).getD 0)) s)).sum
        = ((List.range n).map (fun _ => rc)).sum := by
      refine congrArg List.sum (rangeMap_congr (fun s hs => ?_))
      simp [Function.comp]
    rw [this]
    simp [List.map_const', List.sum_replicate]
  have hright : jointMeanAbsErr x y n f rc i =
      some ((((List.range n).map (fun s =>
        (List.range rc).map (fun l => (absErr x y f rc s i l).getD 0))).flatten).sum
          / ((n * rc : ℕ) : ℚ)) := by
    unfold jointMeanAbsErr
    rw [hflat, vmean_map_some]
    · rw [hflatlen]
    · intro hc
      have := congrArg List.length hc
      rw [hflatlen] at this
      simp at this
      rcases this with h0 | h0 <;> omega
  rw [hleft, hright]
  -- rational arithmetic: sum of (inner sums / rc) over n samples / n = total / (n * rc)
  have hsum : ((List.range n).map (fun s =>
      (((List.range rc).map (fun l => (absErr x y f rc s i l).getD 0)).sum) / (rc : ℚ))).sum =
      (((List.range n).map (fun s =>
        ((List.range rc).map (fun l => (absErr x y f rc s i l).getD 0)).sum)).sum) / (rc : ℚ) := by
    rw [← list_sum_div, List.map_map]
    rfl
  have hflatsum : (((List.range n).map (fun s =>
      (List.range rc).map (fun l => (absErr x y f rc s i l).getD 0))).flatten).sum =
      ((List.range n).map (fun s =>
        ((List.range rc).map (fun l => (absErr x y f rc s i l).getD 0)).sum)).sum := by
    rw [List.sum_flatten, List.map_map]
    rfl
  rw [hsum, hflatsum]
  congr 1
  rw [div_div]
  congr 1
  push_cast
  ring

theorem specFeatureThreshold_isSome (x y : NDArray) (n f rc i : ℕ) (hn : 0 < n) :
    (specFeatureThreshold x y n f rc i).isSome = true := by
  unfold specFeatureThreshold
  refine vmean_isSome _ ?_ ?_
  · intro hc
    have := congrArg List.length hc
    simp at this
    omega
  · intro v hv
    rw [List.mem_map] at hv
    obtain ⟨s, _, hsv⟩ := hv
    rw [← hsv]
    exact nanToZero_isSome _

theorem sampleFeatureMAE_VNN (x y : NDArray) (f rc s i : ℕ) :
    VNN (sampleFeatureMAE x y f rc s i) := by
  unfold sampleFeatureMAE
  refine VNN_vmean _ (fun w hw => ?_)
  rw [List.mem_map] at hw
  obtain ⟨l, _, hlw⟩ := hw
  rw [← hlw]
  exact VNN_absErr x y f rc s i l

theorem specFeatureThreshold_VNN (x y : NDArray) (n f rc i : ℕ) :
    VNN (specFeatureThreshold x y n f rc i) := by
  unfold specFeatureThreshold
  refine VNN_vmean _ (fun v hv => ?_)
  rw [List.mem_map] at hv
  obtain ⟨s, _, hsv⟩ := hv
  rw [← hsv]
  exact VNN_nanToZero (sampleFeatureMAE_VNN x y f rc s i)

theorem vadd_none_left (b : Val) : vadd none b = none := by cases b <;> rfl

theorem vabs_vsub_self (v : Val) : vabs (vsub v v) = some 0 ∨ vabs (vsub v v) = none := by
  cases v
  · right; rfl
  · left; simp [vabs, vsub]

theorem vsum_zero_or_none (L : List Val) (h : ∀ v ∈ L, v = some 0 ∨ v = none) :
    vsum L = some 0 ∨ vsum L = none := by
  induction L with
  | nil => left; rfl
  | cons a as ih =>
      have has := ih (fun v hv => h v (List.mem_cons_of_mem _ hv))
      rcases h a (List.mem_cons_self _ _) with ha | ha
      · rcases has with hs | hs
        · left
          show vadd a (vsum as) = some 0
          rw [ha, hs]
          simp [vadd]
        · right
          show vadd a (vsum as) = none
          rw [ha, hs]
          rfl
      · right
        show vadd a (vsum as) = none
        rw [ha]
        exact vadd_none_left _

theorem vmean_zero_or_none (L : List Val) (h : ∀ v ∈ L, v = some 0 ∨ v = none) :
    vmean L = some 0 ∨ vmean L = none := by
  unfold vmean
  by_cases h0 : L.length = 0
  · right; rw [if_pos h0]
  · rcases vsum_zero_or_none L h with hs | hs
    · left; rw [if_neg h0, hs]; simp
    · right; rw [if_neg h0, hs]; rfl

theorem nanToZero_zero_or_none {v : Val} (h : v = some 0 ∨ v = none) :
    nanToZero v = some 0 := by
  rcases h with h | h <;> rw [h] <;> rfl

theorem specFeatureThreshold_self (x : NDArray) (n f rc i : ℕ) (hn : 0 < n) :
    specFeatureThreshold x x n f rc i = some 0 := by
  unfold specFeatureThreshold
  have hmap : (List.range n).map (fun s => nanToZero (sampleFeatureMAE x x f rc s i)) =
      (List.range n).map (fun _ => some (0 : ℚ)) := by
    refine rangeMap_congr (fun s hs => ?_)
    refine nanToZero_zero_or_none ?_
    unfold sampleFeatureMAE
    refine vmean_zero_or_none _ (fun v hv => ?_)
    rw [List.mem_map] at hv
    obtain ⟨l, _, hlv⟩ := hv
    rw [← hlv]
    exact vabs_vsub_self _
  rw [hmap]
  have hrw : (List.range n).map (fun _ => some (0 : ℚ)) =
      ((List.range n).map (fun _ => (0 : ℚ))).map some := by
    rw [List.map_map]
    rfl
  rw [hrw, vmean_map_some]
  · simp
  · intro hc
    have := congrArg List.length hc
    simp at this
    omega

/-! Lemmas about the polling loop. -/

theorem pollLoop_some (running : String → Bool) (s : ℕ → String) :
    ∀ (fuel i : ℕ) (st : String), pollLoop running s fuel i = some st →
      ∃ k, st = s (i + k) ∧ running (s (i + k)) = false ∧
        ∀ j < k, running (s (i + j)) = true := by
  intro fuel
  induction fuel with
  | zero => intro i st h; simp [pollLoop] at h
  | succ fuel ih =>
      intro i st h
      by_cases hr : running (s i) = true
      · rw [pollLoop, if_pos hr] at h
        obtain ⟨k, h1, h2, h3⟩ := ih (i + 1) st h
        refine ⟨k + 1, ?_, ?_, ?_⟩
        · rw [h1]; congr 1; omega
        · have : i + 1 + k = i + (k + 1) := by omega
          rw [← this]; exact h2
        · intro j hj
          cases j with
          | zero => simpa using hr
          | succ j =>
              have : i + (j + 1) = i + 1 + j := by omega
              rw [this]
              exact h3 j (by omega)
      · rw [pollLoop, if_neg hr] at h
        cases h
        refine ⟨0, by simp, ?_, fun j hj => absurd hj (Nat.not_lt_zero j)⟩
        simpa using hr

theorem pollLoop_none (running : String → Bool) (s : ℕ → String) :
    ∀ (fuel i : ℕ), (∀ k < fuel, running (s (i + k)) = true) →
      pollLoop running s fuel i = none := by
  intro fuel
  induction fuel with
  | zero => intro i _; rfl
  | succ fuel ih =>
      intro i h
      have h0 : running (s i) = true := by simpa using h 0 (by omega)
      rw [pollLoop, if_pos h0]
      refine ih (i + 1) (fun k hk => ?_)
      have : i + 1 + k = i + (k + 1) := by omega
      rw [this]
      exact h (k + 1) (by omega)

/-! Claim theorems. -/

/-- C1: the threshold computation returns one scalar threshold per feature: a
vector of length F whose entry for feature `i` is the mean over the N samples
of the (NaN-zeroed) per-sample mean over the R·C locations of the absolute
prediction error at feature `i`; on NaN-free data (with at least one sample
and one location) this equals the closed-form joint mean-absolute-error over
all N·R·C positions of feature `i`. -/
theorem thresholds_are_per_feature_mae (x y : NDArray) (n f r c : ℕ)
    (hx : x.shape = [n, f, r, c])
    (hxl : x.data.length = n * f * (r * c))
    (hyl : y.data.length = n * f * (r * c)) :
    computeThresholds x y =
      some ((List.range f).map (specFeatureThreshold x y n f (r * c)))
    ∧ ∀ i < f, 0 < n → 0 < r * c →
        (∀ v ∈ x.data, v.isSome = true) → (∀ v ∈ y.data, v.isSome = true) →
        specFeatureThreshold x y n f (r * c) i = jointMeanAbsErr x y n f (r * c) i := by
  refine ⟨computeThresholds_char x y n f r c hx hxl hyl, ?_⟩
  intro i hi hn hrc hxs hys
  exact nested_eq_joint x y n f (r * c) i hxl hyl hxs hys hn hrc hi

set_option maxHeartbeats 1000000 in
/-- Witness for C1 at the stacks of shape (1, 2, 1, 2): the thresholds are
the two per-feature MAE values 2 and 4, and the nested mean agrees with the
joint mean at feature 0. -/
theorem thresholds_are_per_feature_mae_witness :
    computeThresholds gtOneByFour predOneByFour = some [some 2, some 4] ∧
    specFeatureThreshold gtOneByFour predOneByFour 1 2 (1 * 2) 0 =
      jointMeanAbsErr gtOneByFour predOneByFour 1 2 (1 * 2) 0 := by
  have h := thresholds_are_per_feature_mae gtOneByFour predOneByFour 1 2 1 2 rfl rfl rfl
  refine ⟨?_, h.2 0 (by decide) (by decide) (by decide) (by decide) (by decide)⟩
  rw [h.1]
  norm_num [specFeatureThreshold, sampleFeatureMAE, absErr, entryAt, flatIdx, vmean, vsum,
    vadd, vabs, vsub, nanToZero, gtOneByFour, predOneByFour, List.range_succ]

/-- Counterexample to C2 at the stacks of shape (1, 2, 1, 1) with input zeros
and predictions 1 and 3: the claimed reduction across the feature axis would
yield the per-location vector [2] of length R·C = 1, but the code returns the
per-feature vector [1, 3] of length F = 2. -/
theorem mae_reduction_axis_counterexample :
    computeThresholds gtTwoFeat predTwoFeat = some [some 1, some 3] ∧
    (computeThresholds gtTwoFeat predTwoFeat).map List.length = some 2 ∧
    computeThresholds gtTwoFeat predTwoFeat ≠ some [some 2] := by
  have e : computeThresholds gtTwoFeat predTwoFeat = some [some 1, some 3] := by
    rw [computeThresholds_char gtTwoFeat predTwoFeat 1 2 1 1 rfl rfl rfl]
    norm_num [specFeatureThreshold, sampleFeatureMAE, absErr, entryAt, flatIdx, vmean, vsum,
      vadd, vabs, vsub, nanToZero, gtTwoFeat, predTwoFeat, List.range_succ]
  refine ⟨e, ?_, ?_⟩
  · rw [e]; rfl
  · rw [e]
    intro hc
    simp at hc

/-- C2 amended: the reduction step (`np.mean(..., axis=1)` on the transposed
(N, R·C, F) stacks) takes, for every sample and feature, the mean absolute
difference across the R·C location axis, producing an array of shape (N, F)
whose (s, i) entry is the per-sample per-feature MAE; after the (1,0)
transpose `mae_loss` has shape (F, N), and the final output is a per-feature
threshold vector of length F. -/
theorem mae_reduces_over_locations (x y : NDArray) (n f r c : ℕ)
    (hx : x.shape = [n, f, r, c])
    (hxl : x.data.length = n * f * (r * c))
    (hyl : y.data.length = n * f * (r * c)) :
    transformStack x n f (r * c) = some ⟨[n, r * c, f], stackMap x n f (r * c)⟩ ∧
    transformStack y n f (r * c) = some ⟨[n, r * c, f], stackMap y n f (r * c)⟩ ∧
    (mean3Axis1 (absDiff ⟨[n, r * c, f], stackMap y n f (r * c)⟩
        ⟨[n, r * c, f], stackMap x n f (r * c)⟩)).shape = [n, f] ∧
    (mean3Axis1 (absDiff ⟨[n, r * c, f], stackMap y n f (r * c)⟩
        ⟨[n, r * c, f], stackMap x n f (r * c)⟩)).data =
      (List.range (n * f)).map (fun m => sampleFeatureMAE x y f (r * c) (m / f) (m % f)) ∧
    (maeLoss ⟨[n, r * c, f], stackMap x n f (r * c)⟩
        ⟨[n, r * c, f], stackMap y n f (r * c)⟩).shape = [f, n] ∧
    (computeThresholds x y).map List.length = some f := by
  refine ⟨transformStack_eq x n f (r * c) hxl, transformStack_eq y n f (r * c) hyl,
    ?_, ?_, ?_, ?_⟩
  · rw [mean3_absDiff x y n f (r * c)]
  · rw [mean3_absDiff x y n f (r * c)]
  · unfold maeLoss
    rw [mean3_absDiff x y n f (r * c),
      transpose10_of_map (fun s i => sampleFeatureMAE x y f (r * c) s i) n f]
    rfl
  · rw [computeThresholds_char x y n f r c hx hxl hyl]
    simp

/-- Witness for the amended C2 at the stacks of shape (1, 2, 1, 2): the
threshold vector has length F = 2. -/
theorem mae_reduces_over_locations_witness :
    (computeThresholds gtOneByFour predOneByFour).map List.length = some 2 :=
  (mae_reduces_over_locations gtOneByFour predOneByFour 1 2 1 2 rfl rfl rfl).2.2.2.2.2

/-- Counterexample to C3 at the degenerate pair of zero-sample stacks of
shape (0, 1, 1, 1): `np.mean` over the empty sample axis produces NaN, so the
returned threshold vector is [NaN] even though the inputs contain no NaN at
all. -/
theorem thresholds_nan_free_counterexample :
    computeThresholds emptyOneFeat emptyOneFeat = some [none] := by
  rw [computeThresholds_char emptyOneFeat emptyOneFeat 0 1 1 1 rfl rfl rfl]
  norm_num [specFeatureThreshold, vmean, List.range_succ]

/-- C3 amended: for stacks with at least one sample, the threshold
computation never signals an error on NaN values (the result is `some`),
every entry of the NaN-zeroed `mae_loss` array is non-NaN, and no entry of
the returned threshold vector is NaN, wherever NaNs appear in the inputs. -/
theorem thresholds_nan_free (x y : NDArray) (n f r c : ℕ)
    (hx : x.shape = [n, f, r, c])
    (hxl : x.data.length = n * f * (r * c))
    (hyl : y.data.length = n * f * (r * c))
    (hn : 0 < n) :
    (computeThresholds x y).isSome = true ∧
    (∀ v ∈ (maeLoss ⟨[n, r * c, f], stackMap x n f (r * c)⟩
        ⟨[n, r * c, f], stackMap y n f (r * c)⟩).data, v.isSome = true) ∧
    computeThresholds x y =
      some ((List.range f).map (specFeatureThreshold x y n f (r * c))) ∧
    ∀ i < f, (specFeatureThreshold x y n f (r * c) i).isSome = true := by
  have hch := computeThresholds_char x y n f r c hx hxl hyl
  refine ⟨by rw [hch]; rfl, ?_, hch,
    fun i _ => specFeatureThreshold_isSome x y n f (r * c) i hn⟩
  intro v hv
  unfold maeLoss nanZero at hv
  rw [List.mem_map] at hv
  obtain ⟨w, _, hw⟩ := hv
  rw [← hw]
  exact nanToZero_isSome w

/-- Witness for the amended C3: with a NaN in the input stack the computation
still returns a value (no error), and the single threshold entry is non-NaN. -/
theorem thresholds_nan_free_witness :
    (computeThresholds gtWithNaN predNoNaN).isSome = true ∧
    (specFeatureThreshold gtWithNaN predNoNaN 1 1 (1 * 2) 0).isSome = true := by
  have h := thresholds_nan_free gtWithNaN predNoNaN 1 1 1 2 rfl rfl rfl (by decide)
  exact ⟨h.1, h.2.2.2 0 (by decide)⟩

/-- Counterexample to C4 at the degenerate zero-sample stack of shape
(0, 2, 1, 1) used as both input and prediction: the stacks are equal, yet the
threshold vector is [NaN, NaN], not all zeros. -/
theorem identical_stacks_counterexample :
    computeThresholds emptyTwoFeat emptyTwoFeat = some [none, none] ∧
    computeThresholds emptyTwoFeat emptyTwoFeat ≠ some [some 0, some 0] := by
  have e : computeThresholds emptyTwoFeat emptyTwoFeat = some [none, none] := by
    rw [computeThresholds_char emptyTwoFeat emptyTwoFeat 0 2 1 1 rfl rfl rfl]
    norm_num [specFeatureThreshold, vmean, List.range_succ]
  refine ⟨e, ?_⟩
  rw [e]
  intro hc
  simp at hc

/-- C4 amended: for every shape (N, F, R, C) with at least one sample, if the
prediction stack is the input stack itself (in particular both all zero),
every entry of the threshold vector is exactly zero. -/
theorem identical_stacks_zero_thresholds (x : NDArray) (n f r c : ℕ)
    (hx : x.shape = [n, f, r, c])
    (hxl : x.data.length = n * f * (r * c))
    (hn : 0 < n) :
    computeThresholds x x = some (List.replicate f (some 0)) := by
  rw [computeThresholds_char x x n f r c hx hxl hxl]
  have hmap : (List.range f).map (specFeatureThreshold x x n f (r * c)) =
      (List.range f).map (fun _ => some (0 : ℚ)) :=
    rangeMap_congr (fun i _ => specFeatureThreshold_self x n f (r * c) i hn)
  rw [hmap]
  simp [List.map_const']

/-- Witness for the amended C4 at a stack of shape (2, 1, 1, 1) containing a
NaN entry: used as both input and prediction, the threshold vector is [0]. -/
theorem identical_stacks_zero_thresholds_witness :
    computeThresholds selfWithNaN selfWithNaN = some (List.replicate 1 (some 0)) :=
  identical_stacks_zero_thresholds selfWithNaN 2 1 1 1 rfl rfl (by decide)

/-- C5: each stack is reshaped to (N, F, R·C) keeping its flat data, then
transposed to axis order (N, R·C, F): the transform is exactly
reshape-then-transpose, the resulting shape is (N, R·C, F), and the entry at
(sample s, location l, feature i) of the result is the entry at (sample s,
feature i, location l) of the original stack. -/
theorem reshape_transpose_stack (x : NDArray) (n f r c : ℕ)
    (_hx : x.shape = [n, f, r, c])
    (hxl : x.data.length = n * f * (r * c)) :
    reshape x [n, f, r * c] = some ⟨[n, f, r * c], x.data⟩ ∧
    transformStack x n f (r * c) = some (transpose021 ⟨[n, f, r * c], x.data⟩) ∧
    (transpose021 ⟨[n, f, r * c], x.data⟩).shape = [n, r * c, f] ∧
    ∀ s l i, s < n → l < r * c → i < f →
      (transpose021 ⟨[n, f, r * c], x.data⟩).data.getD
          (s * (r * c * f) + (l * f + i)) none =
        entryAt x.data f (r * c) s i l := by
  have hcond : x.data.length = List.prod [n, f, r * c] := by
    simp [hxl]; ring
  have hres : reshape x [n, f, r * c] = some ⟨[n, f, r * c], x.data⟩ := by
    unfold reshape
    rw [if_pos hcond]
  refine ⟨hres, ?_, rfl, ?_⟩
  · unfold transformStack
    rw [hres]
    rfl
  · intro s l i hs hl hi
    show (stackMap x n f (r * c)).getD (s * (r * c * f) + (l * f + i)) none = _
    have hb := flat2_lt hs (flat2_lt hl hi)
    have hlt : s * (r * c * f) + (l * f + i) < n * (r * c) * f := by
      have hassoc : n * (r * c * f) = n * (r * c) * f := by ring
      omega
    unfold stackMap
    rw [getD_range_map _ _ _ _ hlt]
    exact stackEntry_flat x f (r * c) s i l hi hl

/-- Witness for C5 at the stack of shape (1, 2, 1, 2) with data 1..4: the
transform succeeds with shape (1, 2, 2), and the transformed entry at
(sample 0, location 1, feature 1) is the original entry at (0, 1, 0, 1). -/
theorem reshape_transpose_stack_witness :
    (transpose021 ⟨[1, 2, 1 * 2], rampStack.data⟩).shape = [1, 1 * 2, 2] ∧
    (transpose021 ⟨[1, 2, 1 * 2], rampStack.data⟩).data.getD
        (0 * (1 * 2 * 2) + (1 * 2 + 1)) none =
      entryAt rampStack.data 2 (1 * 2) 0 1 1 := by
  have h := reshape_transpose_stack rampStack 1 2 1 2 rfl rfl
  exact ⟨h.2.2.1, h.2.2.2 0 1 1 (by decide) (by decide) (by decide)⟩

/-- Exit characterization of a polling loop started at poll 0. -/
theorem pollLoop_from_start_some (running : String → Bool) (s : ℕ → String)
    (fuel : ℕ) (st : String) (h : pollLoop running s fuel 0 = some st) :
    ∃ k, st = s k ∧ running (s k) = false ∧ ∀ j < k, running (s j) = true := by
  obtain ⟨k, h1, h2, h3⟩ := pollLoop_some running s fuel 0 st h
  exact ⟨k, by simpa using h1, by simpa using h2, fun j hj => by simpa using h3 j hj⟩

/-- Non-exit of a polling loop started at poll 0 while every observed status
is in the running set. -/
theorem pollLoop_from_start_none (running : String → Bool) (s : ℕ → String)
    (fuel : ℕ) (h : ∀ k < fuel, running (s k) = true) :
    pollLoop running s fuel 0 = none :=
  pollLoop_none running s fuel 0 (fun k hk => by simpa using h k hk)

/-- Forced exit of a polling loop: when the first status outside the running
set is observed within the fuel bound, the loop returns exactly it. -/
theorem pollLoop_exits_at (running : String → Bool) (s : ℕ → String) :
    ∀ (fuel i k : ℕ), k < fuel → running (s (i + k)) = false →
      (∀ j < k, running (s (i + j)) = true) →
      pollLoop running s fuel i = some (s (i + k)) := by
  intro fuel
  induction fuel with
  | zero => intro i k hk _ _; omega
  | succ fuel ih =>
      intro i k hk hfalse hprev
      cases k with
      | zero =>
          rw [pollLoop, if_neg]
          · simp
          · simpa using hfalse
      | succ k =>
          have h0 : running (s i) = true := by simpa using hprev 0 (by omega)
          have heq : i + 1 + k = i + (k + 1) := by omega
          rw [pollLoop, if_pos h0, ← heq]
          exact ih (i + 1) k (by omega) (by rw [heq]; exact hfalse)
            (fun j hj => by
              have heq2 : i + 1 + j = i + (j + 1) := by omega
              rw [heq2]
              exact hprev (j + 1) (by omega))

/-- Forced exit of a polling loop started at poll 0. -/
theorem pollLoop_from_start_exits (running : String → Bool) (s : ℕ → String)
    (fuel k : ℕ) (hk : k < fuel) (hfalse : running (s k) = false)
    (hprev : ∀ j < k, running (s j) = true) :
    pollLoop running s fuel 0 = some (s k) := by
  have h := pollLoop_exits_at running s fuel 0 k hk (by simpa using hfalse)
    (fun j hj => by simpa using hprev j hj)
  simpa using h

/-- C6: the create-pipeline cell falls back to the describe call exactly for
a client error whose code is ValidationError and whose message contains
"Pipeline names must be unique within"; every other client error is
re-raised, and every non-client exception propagates uncaught; a successful
create call is used directly. -/
theorem pipeline_create_duplicate_fallback :
    (∀ code msg arn, code = "ValidationError" → strOccurs dupPipelineMsg msg = true →
      createPipelineFlow (CreateResult.clientError code msg) arn =
        FlowResult.fromDescribe arn) ∧
    (∀ code msg arn, ¬ (code = "ValidationError" ∧ strOccurs dupPipelineMsg msg = true) →
      createPipelineFlow (CreateResult.clientError code msg) arn =
        FlowResult.raisedClient code msg) ∧
    (∀ e arn, createPipelineFlow (CreateResult.otherError e) arn =
      FlowResult.raisedOther e) ∧
    (∀ arn0 arn, createPipelineFlow (CreateResult.ok arn0) arn =
      FlowResult.fromCreate arn0) := by
  refine ⟨?_, ?_, fun e arn => rfl, fun arn0 arn => rfl⟩
  · intro code msg arn hc hm
    subst hc
    simp [createPipelineFlow, hm]
  · intro code msg arn hcm
    have hcond : ¬ ((code == "ValidationError" && strOccurs dupPipelineMsg msg) = true) := by
      simp only [Bool.and_eq_true, beq_iff_eq]
      exact hcm
    show (if (code == "ValidationError" && strOccurs dupPipelineMsg msg) = true then
        FlowResult.fromDescribe arn else FlowResult.raisedClient code msg) =
      FlowResult.raisedClient code msg
    rw [if_neg hcond]

/-- Witness for C6: a duplicate-name validation error falls back to the
described pipeline ARN, a throttling client error is re-raised. -/
theorem pipeline_create_duplicate_fallback_witness :
    createPipelineFlow
        (CreateResult.clientError "ValidationError"
          "Pipeline names must be unique within an AWS account and region")
        "arn:described" =
      FlowResult.fromDescribe "arn:described" ∧
    createPipelineFlow (CreateResult.clientError "ThrottlingException" "Rate exceeded")
        "arn:described" =
      FlowResult.raisedClient "ThrottlingException" "Rate exceeded" := by
  have h := pipeline_create_duplicate_fallback
  exact ⟨h.1 _ _ _ rfl (by decide), h.2.1 _ _ _ (by decide)⟩

/-- C7: each of the three wait loops polls the job status repeatedly (with
its fixed sleep between polls) and exits exactly when the observed status
leaves its running set, which is "Executing" for the pipeline execution and
"STARTING"/"INPROGRESS" for the compilation and edge-packaging jobs; while
every observed status stays in the running set, the loop has not exited. -/
theorem wait_loops_exit_on_terminal_status :
    (∀ st, pipelineExecRunning st = true ↔ st = "Executing") ∧
    (∀ st, compilationRunning st = true ↔ (st = "STARTING" ∨ st = "INPROGRESS")) ∧
    (∀ st, edgePackagingRunning st = true ↔ (st = "STARTING" ∨ st = "INPROGRESS")) ∧
    (∀ s fuel st, pollLoop pipelineExecRunning s fuel 0 = some st →
      ∃ k, st = s k ∧ pipelineExecRunning (s k) = false ∧
        ∀ j < k, pipelineExecRunning (s j) = true) ∧
    (∀ s fuel, (∀ k < fuel, pipelineExecRunning (s k) = true) →
      pollLoop pipelineExecRunning s fuel 0 = none) ∧
    (∀ s fuel k, k < fuel → pipelineExecRunning (s k) = false →
      (∀ j < k, pipelineExecRunning (s j) = true) →
      pollLoop pipelineExecRunning s fuel 0 = some (s k)) ∧
    (∀ s fuel st, pollLoop compilationRunning s fuel 0 = some st →
      ∃ k, st = s k ∧ compilationRunning (s k) = false ∧
        ∀ j < k, compilationRunning (s j) = true) ∧
    (∀ s fuel, (∀ k < fuel, compilationRunning (s k) = true) →
      pollLoop compilationRunning s fuel 0 = none) ∧
    (∀ s fuel k, k < fuel → compilationRunning (s k) = false →
      (∀ j < k, compilationRunning (s j) = true) →
      pollLoop compilationRunning s fuel 0 = some (s k)) ∧
    (∀ s fuel st, pollLoop edgePackagingRunning s fuel 0 = some st →
      ∃ k, st = s k ∧ edgePackagingRunning (s k) = false ∧
        ∀ j < k, edgePackagingRunning (s j) = true) ∧
    (∀ s fuel, (∀ k < fuel, edgePackagingRunning (s k) = true) →
      pollLoop edgePackagingRunning s fuel 0 = none) ∧
    (∀ s fuel k, k < fuel → edgePackagingRunning (s k) = false →
      (∀ j < k, edgePackagingRunning (s j) = true) →
      pollLoop edgePackagingRunning s fuel 0 = some (s k)) := by
  refine ⟨?_, ?_, ?_,
    fun s fuel st h => pollLoop_from_start_some _ s fuel st h,
    fun s fuel h => pollLoop_from_start_none _ s fuel h,
    fun s fuel k hk hf hp => pollLoop_from_start_exits _ s fuel k hk hf hp,
    fun s fuel st h => pollLoop_from_start_some _ s fuel st h,
    fun s fuel h => pollLoop_from_start_none _ s fuel h,
    fun s fuel k hk hf hp => pollLoop_from_start_exits _ s fuel k hk hf hp,
    fun s fuel st h => pollLoop_from_start_some _ s fuel st h,
    fun s fuel h => pollLoop_from_start_none _ s fuel h,
    fun s fuel k hk hf hp => pollLoop_from_start_exits _ s fuel k hk hf hp⟩
  · intro st; simp [pipelineExecRunning]
  · intro st; simp [compilationRunning]
  · intro st; simp [edgePackagingRunning]

/-- Witness for C7: each loop keeps looping on a constant in-running-set
status stream, the pipeline running set accepts "Executing", and the pipeline
loop exits on an immediate terminal status. -/
theorem wait_loops_exit_on_terminal_status_witness :
    pipelineExecRunning "Executing" = true ∧
    pollLoop pipelineExecRunning (fun _ => "Executing") 3 0 = none ∧
    pollLoop compilationRunning (fun _ => "INPROGRESS") 3 0 = none ∧
    pollLoop edgePackagingRunning (fun _ => "STARTING") 3 0 = none ∧
    pollLoop pipelineExecRunning (fun _ => "Succeeded") 3 0 = some "Succeeded" := by
  obtain ⟨h1, h2, h3, h4, h5, h6, h7, h8, h9, h10, h11, h12⟩ :=
    wait_loops_exit_on_terminal_status
  refine ⟨(h1 "Executing").mpr rfl, ?_, ?_, ?_, ?_⟩
  · exact h5 (fun _ => "Executing") 3 (by decide)
  · exact h8 (fun _ => "INPROGRESS") 3 (by decide)
  · exact h11 (fun _ => "STARTING") 3 (by decide)
  · exact h6 (fun _ => "Succeeded") 3 0 (by decide) (by decide) (by decide)

/-- Counterexample to C8 at the degenerate pair of zero-sample stacks of
shape (0, 1, 1, 2): the single threshold entry is NaN (the mean over zero
samples), which is not greater than or equal to zero. -/
theorem thresholds_nonneg_counterexample :
    computeThresholds emptyTwoLoc emptyTwoLoc = some [none] ∧
    vNonnegB none = false := by
  refine ⟨?_, rfl⟩
  rw [computeThresholds_char emptyTwoLoc emptyTwoLoc 0 1 1 2 rfl rfl rfl]
  norm_num [specFeatureThreshold, vmean, List.range_succ]

/-- C8 amended: for every pair of stacks (arbitrary rational or NaN entries)
with at least one sample, every entry of the returned threshold vector is a
value greater than or equal to zero: each entry is a mean of absolute
differences in which NaN intermediates were replaced by zero. -/
theorem thresholds_nonneg (x y : NDArray) (n f r c : ℕ)
    (hx : x.shape = [n, f, r, c])
    (hxl : x.data.length = n * f * (r * c))
    (hyl : y.data.length = n * f * (r * c))
    (hn : 0 < n) :
    computeThresholds x y =
      some ((List.range f).map (specFeatureThreshold x y n f (r * c))) ∧
    ∀ i < f, vNonnegB (specFeatureThreshold x y n f (r * c) i) = true := by
  refine ⟨computeThresholds_char x y n f r c hx hxl hyl, fun i _ => ?_⟩
  exact vNonnegB_of (specFeatureThreshold_isSome x y n f (r * c) i hn)
    (specFeatureThreshold_VNN x y n f (r * c) i)

/-- Witness for the amended C8 with a NaN in the input stack: the threshold
entry is nonnegative. -/
theorem thresholds_nonneg_witness :
    vNonnegB (specFeatureThreshold gtWithNaN predNoNaN 1 1 (1 * 2) 0) = true :=
  (thresholds_nonneg gtWithNaN predNoNaN 1 1 1 2 rfl rfl rfl (by decide)).2 0 (by decide)

/-- C9: the threshold computation does not require the prediction stack to
share the input stack's four-dimensional shape: since the prediction array is
reshaped with dimensions taken from the input's shape, the computation
succeeds exactly when the prediction's total element count is N·F·R·C, and
errors (a reshape error, `none`) exactly when the total counts differ. -/
theorem prediction_shape_flexible (x y : NDArray) (n f r c : ℕ)
    (hx : x.shape = [n, f, r, c])
    (hxl : x.data.length = n * f * (r * c)) :
    (computeThresholds x y).isSome = true ↔ y.data.length = n * f * (r * c) := by
  have hmatch : computeThresholds x y =
      (match transformStack x n f (r * c), transformStack y n f (r * c) with
        | some x3, some y3 => some (mean2Axis1 (maeLoss x3 y3)).data
        | _, _ => none) := by
    unfold computeThresholds
    rw [hx]
  rw [hmatch, transformStack_eq x n f (r * c) hxl]
  constructor
  · intro h
    by_cases hy : y.data.length = n * f * (r * c)
    · exact hy
    · exfalso
      have hynone : transformStack y n f (r * c) = none := by
        unfold transformStack reshape
        rw [if_neg]
        · rfl
        · intro hc
          apply hy
          rw [hc]
          simp
          ring
      rw [hynone] at h
      simp at h
  · intro hy
    rw [transformStack_eq y n f (r * c) hy]
    rfl

/-- Witness for C9: with the four prediction values under a flat rank-1
shape the computation succeeds; with only three values it errors. -/
theorem prediction_shape_flexible_witness :
    (computeThresholds gtOneByFour predFlatFour).isSome = true ∧
    (computeThresholds gtOneByFour predFlatThree).isSome = false := by
  refine ⟨(prediction_shape_flexible gtOneByFour predFlatFour 1 2 1 2 rfl rfl).mpr rfl, ?_⟩
  have h := prediction_shape_flexible gtOneByFour predFlatThree 1 2 1 2 rfl rfl
  cases hc : (computeThresholds gtOneByFour predFlatThree).isSome
  · rfl
  · exact absurd (h.mp hc) (by decide)

/-- C10: the post-run step selects the completed training jobs whose name
contains the pipeline execution id; if exactly one matches, the single job's
name and all downstream steps (download, thresholds, compile, package,
deploy) proceed; otherwise the assertion raises `AssertionError` and no
downstream step runs. -/
theorem training_job_count_gate :
    (∀ jobs execId j, j ∈ trainingJobsFor jobs execId ↔
      (j ∈ jobs ∧ j.2 = "Completed" ∧ strOccurs execId j.1 = true)) ∧
    (∀ jobs execId, (trainingJobsFor jobs execId).length = 1 →
      part3AndOnward jobs execId =
        Except.ok (((trainingJobsFor jobs execId).headD ("", "")).1, downstreamSteps)) ∧
    (∀ jobs execId, (trainingJobsFor jobs execId).length ≠ 1 →
      part3AndOnward jobs execId = Except.error "AssertionError") := by
  refine ⟨?_, ?_, ?_⟩
  · intro jobs execId j
    unfold trainingJobsFor
    rw [List.mem_filter]
    simp [Bool.and_eq_true, beq_iff_eq]
  · intro jobs execId h
    unfold part3AndOnward part3Gate
    rw [if_pos h]
  · intro jobs execId h
    unfold part3AndOnward part3Gate
    rw [if_neg h]

/-- Witness for C10: one completed training job whose name contains the
execution id passes the gate and releases the downstream steps; with zero
matching jobs the assertion error is raised. -/
theorem training_job_count_gate_witness :
    part3AndOnward [("pipelines-abc123-TrainModel-xyz", "Completed")] "abc123" =
      Except.ok
        (((trainingJobsFor [("pipelines-abc123-TrainModel-xyz", "Completed")]
            "abc123").headD ("", "")).1, downstreamSteps) ∧
    part3AndOnward [("pipelines-abc123-TrainModel-xyz", "Stopped")] "abc123" =
      Except.error "AssertionError" := by
  have h := training_job_count_gate
  exact ⟨h.2.1 _ _ (by decide), h.2.2 _ _ (by decide)⟩
